import Mathlib

/-!
Verification development for the tectonica sandbox bridge
(`packages/vm/src/marshal.ts`, `packages/vm/src/vm.ts`,
`packages/vm/src/utils.ts`).

The embedding models the host-side `Marshaller` and `VMManager` classes.
Host JavaScript values are the inductive `JSValue`; the wire text produced by
`Marshaller.serializeJSValue` is modelled by its JSON parse tree (`Wire`):
the serializer emits exactly the JSON text whose parse is the tree built
here, and `Marshaller.deserializeVMValue` begins with `JSON.parse`, so the
composition `deserializeVMValue (serializeJSValue v)` is modelled as the
composition of the two tree-level functions.  `generateRandomId` draws from
`Math.random`/`performance.now`; it is modelled by an explicit id supply
threaded through the marshaller state (the negligible-collision contract of
the source corresponds to supplies of pairwise distinct ids).
-/

namespace Tectonica

/-- A host JavaScript value, as discriminated by the `typeof`/`instanceof`
branches of `Marshaller.serializeJSValue`.  Symbols carry their global
registry key (`Symbol.keyFor`) when registered and their `description`;
functions and promises are identified by an opaque id standing for their
object identity. -/
inductive JSValue where
  | undefinedJS
  | null
  | bool (b : Bool)
  | num (n : Int)
  | str (s : String)
  | bigint (i : Int)
  | sym (registryKey : Option String) (description : Option String)
  | date (ms : Int)
  | arr (elems : List JSValue)
  | obj (fields : List (String × JSValue))
  | func (fid : Nat)
  | promise (pid : Nat)

/-- The JSON parse tree of the serialized wire text.  `wtagged ty payload p`
models an object `\x7b "type": ty, "<token>": payload, "parentCacheId"?: p \x7d`
carrying the magic token as a key; `wobj` models a plain JSON object without
the token key. -/
inductive Wire where
  | wnull
  | wbool (b : Bool)
  | wnum (n : Int)
  | wstr (s : String)
  | warr (elems : List Wire)
  | wobj (fields : List (String × Wire))
  | wtagged (ty : String) (payload : Wire) (parentCacheId : Option String)

/-- Association-list model of a JavaScript `Map<string, any>` (`valueCache`). -/
def cacheGet (c : List (String × JSValue)) (k : String) : Option JSValue :=
  (c.find? (fun kv => kv.1 = k)).map (fun kv => kv.2)

/-- `Map.set`: replace an existing binding, else append a new one. -/
def cacheSet (c : List (String × JSValue)) (k : String) (v : JSValue) :
    List (String × JSValue) :=
  if c.any (fun kv => kv.1 = k) then
    c.map (fun kv => if kv.1 = k then (k, v) else kv)
  else
    c ++ [(k, v)]

/-- The mutable state of a host-side `Marshaller`: its `valueCache` and the
supply of ids that `generateRandomId` (utils.ts) will return, in order. -/
structure MarshallerState where
  valueCache : List (String × JSValue)
  idSupply : List String

/-- `generateRandomId` (utils.ts): produces the next id of the supply. -/
def generateRandomId (st : MarshallerState) : String × MarshallerState :=
  match st.idSupply with
  | [] => ("0x0", st)
  | id :: rest => (id, { st with idSupply := rest })

/-- Extend the marshaller's `valueCache` with `this.valueCache.set(id, v)`. -/
def withCache (st : MarshallerState) (id : String) (v : JSValue) : MarshallerState :=
  { st with valueCache := cacheSet st.valueCache id v }

/-- The string interpolation of `Symbol.keyFor(value) ?? value.description`
at marshal.ts line 112: the registry key when registered, else the
description, else the text "undefined" (interpolation of `undefined`). -/
def symbolPayload (registryKey description : Option String) : String :=
  match registryKey with
  | some k => k
  | none =>
    match description with
    | some d => d
    | none => "undefined"

/-- Whether `'then' in value` holds for a plain object (marshal.ts line 126). -/
def hasThenKey (fields : List (String × JSValue)) : Bool :=
  (fields.map Prod.fst).contains "then"

mutual

/-- `Marshaller.serializeJSValue` (marshal.ts lines 99-139).  Primitives are
emitted as plain JSON; `undefined`/`bigint`/`symbol` as tagged wrappers; then
a fresh `valueId` is drawn (even on the `null`/`Date`/array branches, which
do not use it); `Date` becomes a tagged epoch-millisecond wrapper; arrays
recurse elementwise under the same token; promises and `'then'`-keyed
objects are cached and tagged `promise`; other objects are cached and tagged
`object`; functions are cached and tagged `function` carrying
`parentCacheId` when given. -/
def serializeJSValue (value : JSValue) (tkn : String) (parentCacheId : Option String)
    (st : MarshallerState) : Wire × MarshallerState :=
  match value with
  | .str s => (.wstr s, st)
  | .bool b => (.wbool b, st)
  | .num n => (.wnum n, st)
  | .undefinedJS => (.wtagged "undefined" (.wbool true) none, st)
  | .bigint i => (.wtagged "bigint" (.wstr (toString i)) none, st)
  | .sym reg desc => (.wtagged "symbol" (.wstr (symbolPayload reg desc)) none, st)
  | .null =>
    let (_, st1) := generateRandomId st
    (.wnull, st1)
  | .date ms =>
    let (_, st1) := generateRandomId st
    (.wtagged "date" (.wnum ms) none, st1)
  | .arr elems =>
    let (_, st1) := generateRandomId st
    let (ws, st2) := serializeJSList elems tkn st1
    (.warr ws, st2)
  | .promise p =>
    let (valueId, st1) := generateRandomId st
    (.wtagged "promise" (.wstr valueId) none, withCache st1 valueId (.promise p))
  | .obj fields =>
    let (valueId, st1) := generateRandomId st
    if hasThenKey fields then
      (.wtagged "promise" (.wstr valueId) none, withCache st1 valueId (.obj fields))
    else
      (.wtagged "object" (.wstr valueId) none, withCache st1 valueId (.obj fields))
  | .func f =>
    let (valueId, st1) := generateRandomId st
    (.wtagged "function" (.wstr valueId) parentCacheId, withCache st1 valueId (.func f))

/-- `value.map((child) => this.serializeJSValue(child, tkn).serialized)`:
array children are serialized left to right under the same token, threading
the marshaller state. -/
def serializeJSList (vs : List JSValue) (tkn : String) (st : MarshallerState) :
    List Wire × MarshallerState :=
  match vs with
  | [] => ([], st)
  | v :: rest =>
    let (w, st1) := serializeJSValue v tkn none st
    let (ws, st2) := serializeJSList rest tkn st1
    (w :: ws, st2)

end

/-- The base value handed to `new Proxy(base, ...)` by
`Marshaller._createVMProxy` (marshal.ts line 179/182: `function proxyBase()`
for the `function` kind, `\x7b\x7d` for the `object`/`cache` kinds). -/
inductive ProxyBase where
  | funcBase
  | objBase
deriving DecidableEq, Repr

/-- A value produced on the host by `Marshaller.deserializeVMValue`.
`sym k` is the registered symbol `Symbol.for(k)`; `proxy` is the
`RemoteProxy` built by `_createVMProxy`, bound to a CacheId and, for
functions, an optional parent CacheId; `bridgedPromise` is the host promise
produced by `_getVMCachedPromise`. -/
inductive DeValue where
  | undefinedJS
  | null
  | bool (b : Bool)
  | num (n : Int)
  | str (s : String)
  | bigint (i : Int)
  | sym (registryKey : String)
  | date (ms : Int)
  | arr (elems : List DeValue)
  | obj (fields : List (String × DeValue))
  | proxy (base : ProxyBase) (cacheId : String) (parentId : Option String)
  | bridgedPromise (cacheId : String)

/-- `val[token]` read as a string (the payload of a tagged wrapper). -/
def payloadStr : Wire → String
  | .wstr s => s
  | _ => ""

/-- `val[token]` read as a number. -/
def payloadNum : Wire → Int
  | .wnum n => n
  | _ => 0

/-- `BigInt(s)` on the decimal string payload emitted by the serializer. -/
def decStringToInt (s : String) : Int :=
  (s.toInt?).getD 0

mutual

/-- `Marshaller.deserializeVMValue` (marshal.ts lines 141-198), after the
initial `JSON.parse`.  `null` maps to `null`; arrays recurse; a node
carrying the token key dispatches on its `type`, building `RemoteProxy`
values for the `function`/`object`/`cache` kinds (a `function` node uses its
own `parentCacheId` field, falling back to the caller's); an untagged object
recurses per key. -/
def deserializeVMValue (w : Wire) (tkn : String) (parentCacheId : Option String) :
    DeValue :=
  match w with
  | .wnull => .null
  | .wbool b => .bool b
  | .wnum n => .num n
  | .wstr s => .str s
  | .warr elems => .arr (deserializeVMList elems tkn)
  | .wobj fields => .obj (deserializeVMFields fields tkn)
  | .wtagged ty payload parent =>
    match ty with
    | "undefined" => .undefinedJS
    | "null" => .null
    | "bigint" => .bigint (decStringToInt (payloadStr payload))
    | "symbol" => .sym (payloadStr payload)
    | "date" => .date (payloadNum payload)
    | "promise" => .bridgedPromise (payloadStr payload)
    | "function" =>
      .proxy .funcBase (payloadStr payload)
        (match parent with
         | some p => some p
         | none => parentCacheId)
    | "object" => .proxy .objBase (payloadStr payload) none
    | _ => .proxy .objBase (payloadStr payload) none

/-- Array children are deserialized elementwise with `json = false`. -/
def deserializeVMList (ws : List Wire) (tkn : String) : List DeValue :=
  match ws with
  | [] => []
  | w :: rest => deserializeVMValue w tkn none :: deserializeVMList rest tkn

/-- `for (const key in val) parsedVal[key] = this.deserializeVMValue(...)`. -/
def deserializeVMFields (fs : List (String × Wire)) (tkn : String) :
    List (String × DeValue) :=
  match fs with
  | [] => []
  | (k, w) :: rest => (k, deserializeVMValue w tkn none) :: deserializeVMFields rest tkn

end

mutual

/-- Structural deep equality between a host value and a deserialized value,
as an own-enumerable-key comparison (the notion used by the repository's
chai `deep.equal` assertions).  Symbols compare by identity: the registered
symbol `Symbol.for(k)` is the original symbol exactly when the original was
registered under `k`.  A `RemoteProxy` over the empty base object exposes no
own keys (the source proxy installs no `ownKeys` trap), so it compares equal
only to the empty object. -/
def deepEqual (v : JSValue) (d : DeValue) : Bool :=
  match v, d with
  | .undefinedJS, .undefinedJS => true
  | .null, .null => true
  | .bool a, .bool b => a == b
  | .num a, .num b => a == b
  | .str a, .str b => a == b
  | .bigint a, .bigint b => a == b
  | .sym reg _, .sym k => reg == some k
  | .date a, .date b => a == b
  | .arr xs, .arr ys => deepEqualList xs ys
  | .obj fs, .obj gs => deepEqualFields fs gs
  | .obj fs, .proxy .objBase _ _ => fs.isEmpty
  | _, _ => false

/-- Elementwise deep equality of arrays. -/
def deepEqualList (xs : List JSValue) (ys : List DeValue) : Bool :=
  match xs, ys with
  | [], [] => true
  | x :: xr, y :: yr => deepEqual x y && deepEqualList xr yr
  | _, _ => false

/-- Keywise deep equality of plain objects (same keys in the same
enumeration order, deep-equal values). -/
def deepEqualFields (fs : List (String × JSValue)) (gs : List (String × DeValue)) :
    Bool :=
  match fs, gs with
  | [], [] => true
  | (k, x) :: fr, (k2, y) :: gr => k == k2 && deepEqual x y && deepEqualFields fr gr
  | _, _ => false

end

/-! ### Concrete inputs used to evaluate the serializer -/

/-- A plain host object `\x7b a: 1 \x7d`. -/
def exampleHostObject : JSValue := .obj [("a", .num 1)]

/-- A fresh marshaller whose next two `generateRandomId` results are the
distinct ids `0xA` and `0xB`. -/
def initialState : MarshallerState := { valueCache := [], idSupply := ["0xA", "0xB"] }

/-- First serialization of `exampleHostObject`. -/
def firstSerialization : Wire × MarshallerState :=
  serializeJSValue exampleHostObject "_T_" none initialState

/-- Second serialization of the same object on the same marshaller, with no
intervening cache clear. -/
def secondSerialization : Wire × MarshallerState :=
  serializeJSValue exampleHostObject "_T_" none firstSerialization.2

/-- C1: the claim states that serializing the same host object twice without
a cache clear re-emits the existing CacheId.  Evaluating
`Marshaller.serializeJSValue` (marshal.ts 99-139) at the host object
`\x7b a: 1 \x7d` twice shows the opposite: the function never consults the
cache for an existing id, so the first call emits wire data referencing the
fresh id `0xA` and the second call mints and emits the distinct fresh id
`0xB`, re-caching the object under the new id as well. -/
theorem serializeJSValue_second_marshal_mints_fresh_cacheId :
    firstSerialization.1 = .wtagged "object" (.wstr "0xA") none ∧
    secondSerialization.1 = .wtagged "object" (.wstr "0xB") none ∧
    ("0xA" : String) ≠ "0xB" ∧
    cacheGet secondSerialization.2.valueCache "0xA" = some exampleHostObject ∧
    cacheGet secondSerialization.2.valueCache "0xB" = some exampleHostObject :=
  ⟨rfl, rfl, by decide, rfl, rfl⟩

/-- C2: the claim states that `deserializeVMValue` applied to the output of
`serializeJSValue` (same token) reconstructs a deep-equal value for plain
objects, among other kinds.  Evaluating at the plain object `\x7b a: 1 \x7d`
shows that the round trip instead yields a `RemoteProxy` over the empty base
object bound to the minted CacheId (marshal.ts line 182), which is not
deep-equal to the original object. -/
theorem roundtrip_plain_object_yields_proxy_not_deep_equal :
    deserializeVMValue firstSerialization.1 "_T_" none
        = .proxy .objBase "0xA" none ∧
    deepEqual exampleHostObject
        (deserializeVMValue firstSerialization.1 "_T_" none) = false :=
  ⟨rfl, rfl⟩

/-! ### Dangling-reference behavior of the proxy-trap cache getters (C3) -/

/-- JavaScript property read `v[key]`: an own key of a plain object, else
`undefined`. -/
def jsGetProp (v : JSValue) (key : String) : JSValue :=
  match v with
  | .obj fields => ((fields.find? (fun kv => kv.1 = key)).map (fun kv => kv.2)).getD .undefinedJS
  | _ => .undefinedJS

/-- An error raised on a bridge path: a `TypeError` raised implicitly by the
JavaScript runtime, or an `Error` constructed explicitly with a message. -/
inductive JSError where
  | typeError (msg : String)
  | genericError (msg : String)
deriving DecidableEq, Repr

/-- `__vmCacheGetter` (marshal.ts line 298), the sandbox-global backing the
host-side RemoteProxy `get` trap:
`(cacheId, key) => __valueCache.get(cacheId)?.[key]`.  A missing CacheId
short-circuits through optional chaining to `undefined`; no error is ever
raised. -/
def vmCacheGetter (cache : List (String × JSValue)) (cacheId key : String) :
    Except JSError JSValue :=
  match cacheGet cache cacheId with
  | none => .ok .undefinedJS
  | some v => .ok (jsGetProp v key)

/-- `generateMagicToken` (utils.ts) with no options: an underscore-wrapped
fresh id. -/
def generateMagicToken (id : String) : String := "_" ++ id ++ "_"

/-- `__getCacheItemKey` (marshal.ts lines 354-359), the host function backing
the sandbox-side proxy `get` trap: it reads
`cachedItem = this.valueCache.get(cacheId)` and then evaluates
`this.marshal(cachedItem[key], cacheId)`.  When the CacheId is absent,
`cachedItem` is `undefined` and the property read throws a `TypeError`;
otherwise the property value is serialized with a fresh magic token and
`cacheId` as `parentCacheId`. -/
def getCacheItemKey (st : MarshallerState) (cacheId key : String) :
    Except JSError (Wire × MarshallerState) :=
  match cacheGet st.valueCache cacheId with
  | none => .error (.typeError "Cannot read properties of undefined")
  | some v =>
    let (tknId, st1) := generateRandomId st
    .ok (serializeJSValue (jsGetProp v key) (generateMagicToken tknId) (some cacheId) st1)

/-- C3 counterexample: the getter backing the property-get trap, invoked on a
CacheId absent from the origin cache, silently returns `undefined` (optional
chaining in `__vmCacheGetter`) instead of failing with a
DanglingReferenceError-class condition. -/
theorem vmCacheGetter_dangling_get_returns_undefined :
    vmCacheGetter [] "0xdead" "p" = .ok .undefinedJS := rfl

/-- C3 (amended): no DanglingReferenceError-class condition exists on the
trap paths.  For any CacheId absent from the origin cache, the sandbox-side
getter backing the host proxy get trap silently returns `undefined`, while
the host-side getter backing the sandbox proxy get trap fails with a generic
`TypeError` (property read on `undefined`). -/
theorem dangling_cacheId_trap_behavior
    (cache : List (String × JSValue)) (st : MarshallerState) (cacheId key : String)
    (h1 : cacheGet cache cacheId = none)
    (h2 : cacheGet st.valueCache cacheId = none) :
    vmCacheGetter cache cacheId key = .ok .undefinedJS ∧
    getCacheItemKey st cacheId key
      = .error (.typeError "Cannot read properties of undefined") := by
  constructor
  · unfold vmCacheGetter
    rw [h1]
  · unfold getCacheItemKey
    rw [h2]

/-- Witness for `dangling_cacheId_trap_behavior` at an empty cache and the
concrete dangling CacheId `0xdead`. -/
theorem dangling_cacheId_trap_behavior_witness :
    vmCacheGetter [] "0xdead" "p" = .ok .undefinedJS ∧
    getCacheItemKey { valueCache := [], idSupply := [] } "0xdead" "p"
      = .error (.typeError "Cannot read properties of undefined") :=
  dangling_cacheId_trap_behavior [] { valueCache := [], idSupply := [] } "0xdead" "p"
    rfl rfl

/-! ### Engine-handle discipline of the proxy-trap helpers (C4)

Handles allocated from the engine binding are identified by allocation
order; `live` lists the handles not yet disposed.  Each trap helper is
modelled as its straight-line allocation/dispose trace, with two booleans
selecting whether `vm.unwrapResult(vm.callFunction(...))` throws and whether
the `unmarshal` of its result throws. -/

/-- The engine's live-handle state. -/
structure HandleSys where
  nextHandle : Nat
  live : List Nat
deriving DecidableEq, Repr

/-- Allocate a fresh engine handle. -/
def allocHandle (h : HandleSys) : Nat × HandleSys :=
  (h.nextHandle, { nextHandle := h.nextHandle + 1, live := h.live ++ [h.nextHandle] })

/-- `handle.dispose()`. -/
def disposeHandle (h : HandleSys) (hd : Nat) : HandleSys :=
  { h with live := h.live.erase hd }

/-- `scope.dispose()`: dispose every handle the scope manages, in order. -/
def disposeHandles (h : HandleSys) (hs : List Nat) : HandleSys :=
  hs.foldl disposeHandle h

/-- `Marshaller._getVMCacheItemKey` (marshal.ts lines 233-243): the getter,
cacheId and key handles are scope-managed, then the forwarded call's result
handle is scope-managed and unmarshalled, and `scope.dispose()` runs only on
the straight-line path — there is no try/finally, so when the call or the
unmarshal throws, the exception propagates without disposing the scope. -/
def getVMCacheItemKeyHandles (callThrows unmarshalThrows : Bool) (h : HandleSys) :
    Except Unit Unit × HandleSys :=
  let (getter, h1) := allocHandle h
  let (cacheIdHandle, h2) := allocHandle h1
  let (keyHandle, h3) := allocHandle h2
  if callThrows then
    (.error (), h3)
  else
    let (returnValHandle, h4) := allocHandle h3
    if unmarshalThrows then
      (.error (), h4)
    else
      (.ok (), disposeHandles h4 [getter, cacheIdHandle, keyHandle, returnValHandle])

/-- `Marshaller._callVMCacheItem` (marshal.ts lines 258-272): the caller,
cacheId, argument-array and thisId handles are scope-managed, the forwarded
call and the unmarshal of its result run inside `try`, and
`scope.dispose()` runs in `finally`, so every scope-managed handle is
disposed on success and on both throwing paths. -/
def callVMCacheItemHandles (callThrows unmarshalThrows : Bool) (h : HandleSys) :
    Except Unit Unit × HandleSys :=
  let (caller, h1) := allocHandle h
  let (cacheIdHandle, h2) := allocHandle h1
  let (argArrayHandle, h3) := allocHandle h2
  let (thisIdHandle, h4) := allocHandle h3
  if callThrows then
    (.error (), disposeHandles h4 [caller, cacheIdHandle, argArrayHandle, thisIdHandle])
  else
    let (returnValHandle, h5) := allocHandle h4
    if unmarshalThrows then
      (.error (),
       disposeHandles h5 [caller, cacheIdHandle, argArrayHandle, thisIdHandle, returnValHandle])
    else
      (.ok (),
       disposeHandles h5 [caller, cacheIdHandle, argArrayHandle, thisIdHandle, returnValHandle])

/-- Every live handle was allocated earlier than the next fresh handle. -/
def HandleSys.wf (h : HandleSys) : Prop := ∀ x ∈ h.live, x < h.nextHandle

/-- Erasing a handle at least as fresh as `n` from a list whose prefix holds
only handles older than `n` removes it from the suffix. -/
theorem erase_fresh_head (l rest : List Nat) (n m : Nat)
    (hl : ∀ x ∈ l, x < n) (hm : n ≤ m) :
    (l ++ (m :: rest)).erase m = l ++ rest := by
  rw [List.erase_append_right, List.erase_cons_head]
  intro hmem
  exact absurd (hl m hmem) (by omega)

/-- C4 counterexample: running `_getVMCacheItemKey` from a fresh engine state
with the forwarded call throwing leaves its three scope-managed handles
(getter, cacheId, key) alive — the error path releases nothing. -/
theorem getVMCacheItemKey_error_path_leaks_handles :
    (getVMCacheItemKeyHandles true false { nextHandle := 0, live := [] }).2.live
        = [0, 1, 2] ∧
    ([0, 1, 2] : List Nat) ≠ [] :=
  ⟨rfl, by decide⟩

/-- Disposing four freshly allocated handles in order removes exactly them. -/
theorem erase_chain4 (l : List Nat) (n : Nat) (hl : ∀ x ∈ l, x < n) :
    ((((l ++ [n, n + 1, n + 2, n + 3]).erase n).erase (n + 1)).erase (n + 2)).erase (n + 3)
      = l := by
  rw [erase_fresh_head l [n + 1, n + 2, n + 3] n n hl (Nat.le_refl n),
      erase_fresh_head l [n + 2, n + 3] n (n + 1) hl (by omega),
      erase_fresh_head l [n + 3] n (n + 2) hl (by omega),
      erase_fresh_head l [] n (n + 3) hl (by omega),
      List.append_nil]

/-- Disposing five freshly allocated handles in order removes exactly them. -/
theorem erase_chain5 (l : List Nat) (n : Nat) (hl : ∀ x ∈ l, x < n) :
    (((((l ++ [n, n + 1, n + 2, n + 3, n + 4]).erase n).erase (n + 1)).erase (n + 2)).erase
        (n + 3)).erase (n + 4) = l := by
  rw [erase_fresh_head l [n + 1, n + 2, n + 3, n + 4] n n hl (Nat.le_refl n),
      erase_fresh_head l [n + 2, n + 3, n + 4] n (n + 1) hl (by omega),
      erase_fresh_head l [n + 3, n + 4] n (n + 2) hl (by omega),
      erase_fresh_head l [n + 4] n (n + 3) hl (by omega),
      erase_fresh_head l [] n (n + 4) hl (by omega),
      List.append_nil]

/-- C4 (amended): on the success path each trap helper releases every handle
it created, and `_callVMCacheItem` — whose body runs inside try/finally —
also releases all of its scope-managed handles when the forwarded call or
the unmarshal of its result throws; but `_getVMCacheItemKey` has no
try/finally, so on its throwing paths the scope is never disposed and the
three (respectively four) handles created up to the throw stay live. -/
theorem trap_helper_handle_release (h : HandleSys) (hwf : h.wf) :
    (getVMCacheItemKeyHandles false false h).2.live = h.live ∧
    (∀ callThrows unmarshalThrows : Bool,
      (callVMCacheItemHandles callThrows unmarshalThrows h).2.live = h.live) ∧
    (getVMCacheItemKeyHandles true false h).2.live
        = h.live ++ [h.nextHandle, h.nextHandle + 1, h.nextHandle + 2] ∧
    (getVMCacheItemKeyHandles false true h).2.live
        = h.live ++ [h.nextHandle, h.nextHandle + 1, h.nextHandle + 2, h.nextHandle + 3] := by
  refine ⟨?_, ?_, ?_, ?_⟩
  · simp only [getVMCacheItemKeyHandles, allocHandle, disposeHandles, disposeHandle,
      List.foldl, if_false, Bool.false_eq_true, List.append_assoc, List.singleton_append,
      List.cons_append, List.nil_append]
    exact erase_chain4 h.live h.nextHandle hwf
  · intro callThrows unmarshalThrows
    cases callThrows <;> cases unmarshalThrows <;>
      simp only [callVMCacheItemHandles, allocHandle, disposeHandles, disposeHandle,
        List.foldl, if_false, if_true, Bool.false_eq_true, List.append_assoc,
        List.singleton_append, List.cons_append, List.nil_append] <;>
      first
        | exact erase_chain4 h.live h.nextHandle hwf
        | exact erase_chain5 h.live h.nextHandle hwf
  · simp only [getVMCacheItemKeyHandles, allocHandle, if_true, List.append_assoc,
      List.singleton_append, List.cons_append, List.nil_append]
  · simp only [getVMCacheItemKeyHandles, allocHandle, if_false, if_true,
      Bool.false_eq_true, List.append_assoc, List.singleton_append, List.cons_append,
      List.nil_append]

/-- Witness for `trap_helper_handle_release` at a fresh engine state, with
the error paths instantiated. -/
theorem trap_helper_handle_release_witness :
    (getVMCacheItemKeyHandles false false { nextHandle := 0, live := [] }).2.live = [] ∧
    (callVMCacheItemHandles true false { nextHandle := 0, live := [] }).2.live = [] ∧
    (callVMCacheItemHandles false true { nextHandle := 0, live := [] }).2.live = [] ∧
    (getVMCacheItemKeyHandles false true { nextHandle := 0, live := [] }).2.live
        = [0, 1, 2, 3] := by
  have hwf : HandleSys.wf { nextHandle := 0, live := [] } := by
    intro x hx
    cases hx
  have h := trap_helper_handle_release { nextHandle := 0, live := [] } hwf
  exact ⟨h.1, h.2.1 true false, h.2.1 false true, h.2.2.2⟩

/-! ### The host-to-sandbox promise bridge (C5) -/

/-- The settlement of a host promise: fulfilled with a value, or rejected
with a reason. -/
inductive POutcome where
  | fulfilled (v : JSValue)
  | rejected (r : JSValue)

/-- An observable step on the settlement path of `__getCachedPromise`:
marshalling a host value, resolving or rejecting the sandbox-native promise
with the marshalled handle, and draining the sandbox's pending job queue. -/
inductive BridgeEvent where
  | marshalled (v : JSValue)
  | resolvedVM (v : JSValue)
  | rejectedVM (r : JSValue)
  | executePendingJobs

/-- The settlement handlers attached by
`cachedPromise.then(onFulfilled, onRejected)` (marshal.ts lines 337-350):
fulfillment marshals the result and resolves the sandbox promise with the
marshalled handle; rejection marshals the reason and rejects the sandbox
promise with the marshalled handle. -/
def settleHandlerEvents : POutcome → List BridgeEvent
  | .fulfilled v => [.marshalled v, .resolvedVM v]
  | .rejected r => [.marshalled r, .rejectedVM r]

/-- `__getCachedPromise` (marshal.ts lines 330-353): look the CacheId up in
the host `valueCache` (throwing `No such promise` when absent), create a
sandbox-native promise, attach the settlement handlers, and arrange — via
`vmPromise.settled.then(vm.runtime.executePendingJobs)` — for the sandbox's
pending job queue to be drained once the sandbox promise settles, whichever
way it settles. -/
def getCachedPromiseEvents (cache : List (String × JSValue)) (cacheId : String)
    (outcome : POutcome) : Except JSError (List BridgeEvent) :=
  match cacheGet cache cacheId with
  | none => .error (.genericError "No such promise")
  | some _ => .ok (settleHandlerEvents outcome ++ [.executePendingJobs])

/-- C5: when a cached host promise bridged into the sandbox settles, the
settlement payload is marshalled and used to resolve (on fulfillment) or
reject (on rejection) the sandbox-native promise, and after every
settlement — fulfillment or rejection alike — the sandbox's pending job
queue is drained. -/
theorem cached_promise_settlement_marshals_and_drains
    (cache : List (String × JSValue)) (cacheId : String) (p : JSValue)
    (hp : cacheGet cache cacheId = some p) :
    (∀ v : JSValue, getCachedPromiseEvents cache cacheId (.fulfilled v)
        = .ok [.marshalled v, .resolvedVM v, .executePendingJobs]) ∧
    (∀ r : JSValue, getCachedPromiseEvents cache cacheId (.rejected r)
        = .ok [.marshalled r, .rejectedVM r, .executePendingJobs]) := by
  constructor <;>
    · intro x
      unfold getCachedPromiseEvents
      rw [hp]
      rfl

/-- Witness for `cached_promise_settlement_marshals_and_drains`: a cache
holding one host promise under CacheId `0xP`, settled both ways. -/
theorem cached_promise_settlement_marshals_and_drains_witness :
    getCachedPromiseEvents [("0xP", .promise 0)] "0xP" (.fulfilled (.num 6))
        = .ok [.marshalled (.num 6), .resolvedVM (.num 6), .executePendingJobs] ∧
    getCachedPromiseEvents [("0xP", .promise 0)] "0xP" (.rejected (.num 42))
        = .ok [.marshalled (.num 42), .rejectedVM (.num 42), .executePendingJobs] :=
  ⟨(cached_promise_settlement_marshals_and_drains [("0xP", .promise 0)] "0xP"
      (.promise 0) rfl).1 (.num 6),
   (cached_promise_settlement_marshals_and_drains [("0xP", .promise 0)] "0xP"
      (.promise 0) rfl).2 (.num 42)⟩

/-! ### VMManager.scopedEval (C6)

`scopedEval` (vm.ts lines 123-144) wraps the user code together with a
destructuring of the context variables in a freshly generated function whose
parameter name comes from `generateMagicToken` with the `__context_args`
marker, then calls that function with the marshalled context object.
Scripts are modelled over a small expression language with integer values:
`eval` runs top-level `const` declarations against the persistent global
lexical environment of the context (where a redeclared `const` fails, as in
JavaScript), while the generated function's declarations run in a fresh
function-local scope that is discarded when the call returns. -/

/-- Expressions of the evaluated script language. -/
inductive Expr where
  | lit (n : Int)
  | evar (name : String)
  | add (a b : Expr)

/-- A lexical environment: names bound to values, innermost first. -/
abbrev Env := List (String × Int)

/-- Variable lookup. -/
def lookupEnv (e : Env) (n : String) : Option Int :=
  (e.find? (fun kv => kv.1 = n)).map (fun kv => kv.2)

/-- Script-level failures: redeclaring a `const` in the same lexical scope,
or reading an unbound variable. -/
inductive EvalErr where
  | redeclaration (name : String)
  | unboundVar (name : String)
deriving DecidableEq, Repr

/-- Expression evaluation. -/
def evalExpr (env : Env) : Expr → Except EvalErr Int
  | .lit n => .ok n
  | .evar x =>
    match lookupEnv env x with
    | some v => .ok v
    | none => .error (.unboundVar x)
  | .add a b =>
    match evalExpr env a with
    | .error err => .error err
    | .ok x =>
      match evalExpr env b with
      | .error err => .error err
      | .ok y => .ok (x + y)

/-- A script: top-level `const name = expr` declarations in order, followed
by a result expression. -/
structure Program where
  decls : List (String × Expr)
  result : Expr

/-- Run `const` declarations against the lexical scope `declared`, with the
enclosing scope `outer` visible for reads: declaring a name already present
in the same scope fails with a redeclaration error, as in JavaScript. -/
def runDecls (outer : Env) (declared : Env) :
    List (String × Expr) → Except EvalErr Env
  | [] => .ok declared
  | (n, e) :: rest =>
    if (declared.map Prod.fst).contains n then
      .error (.redeclaration n)
    else
      match evalExpr (declared ++ outer) e with
      | .error err => .error err
      | .ok v => runDecls outer (declared ++ [(n, v)]) rest

/-- The sandbox context's persistent global lexical environment: top-level
`const` bindings accumulate across `evalCode` calls in the same context. -/
structure GlobalEnv where
  decls : Env
deriving DecidableEq, Repr

/-- `VMManager.eval` (vm.ts lines 106-116): evaluate a script at global
scope; its top-level declarations join the persistent global environment,
so re-declaring an existing global `const` fails. -/
def evalScript (g : GlobalEnv) (p : Program) : Except EvalErr (Int × GlobalEnv) :=
  match runDecls [] g.decls p.decls with
  | .error err => .error err
  | .ok g2 =>
    match evalExpr g2 p.result with
    | .error err => .error err
    | .ok v => .ok (v, ⟨g2⟩)

/-- The function source generated by one `scopedEval` call: its parameter
name, the destructured context-variable names, and the user code. -/
structure ScopedFunction where
  paramName : String
  destructuredNames : List String
  body : Expr

/-- Building the generated function: the parameter name is
`generateMagicToken` applied to the `__context_args` marker and the fresh id
of this call, i.e. the string `__context_args` + `_` + id + `_`. -/
def buildScopedFunction (code : Expr) (varNames : List String) (freshId : String) :
    ScopedFunction :=
  { paramName := "__context_args" ++ "_" ++ freshId ++ "_"
    destructuredNames := varNames
    body := code }

/-- The inner block's destructuring `const` declarations: each context name
declared as a block-scoped `const` initialized from the parameter object. -/
def destructuringDecls (contextVars : Env) : List (String × Expr) :=
  contextVars.map (fun kv => (kv.1, Expr.lit kv.2))

/-- `VMManager.scopedEval` (vm.ts lines 123-144): build the scoped function
with a per-call generated parameter name, call it with the marshalled
context object; the destructuring declarations execute in a fresh
function-local scope (globals stay readable but gain no bindings), the user
code evaluates with the locals shadowing the globals, and the local scope is
discarded — the global environment is returned unchanged. -/
def scopedEval (g : GlobalEnv) (code : Expr) (contextVars : Env) (freshId : String) :
    Except EvalErr (Int × GlobalEnv) :=
  let fn := buildScopedFunction code (contextVars.map Prod.fst) freshId
  match runDecls g.decls [] (destructuringDecls contextVars) with
  | .error err => .error err
  | .ok locals =>
    match evalExpr (locals ++ g.decls) fn.body with
    | .error err => .error err
    | .ok v => .ok (v, g)

/-- Distinct fresh ids produce distinct generated parameter names. -/
theorem buildScopedFunction_paramName_inj (code : Expr) (names : List String)
    (id1 id2 : String) (h : id1 ≠ id2) :
    (buildScopedFunction code names id1).paramName
      ≠ (buildScopedFunction code names id2).paramName := by
  simp only [buildScopedFunction]
  intro he
  apply h
  have hd := congrArg String.data he
  simp only [String.data_append, List.append_assoc] at hd
  have h1 := List.append_cancel_left hd
  have h2 := List.append_cancel_left h1
  have h3 := List.append_cancel_right h2
  cases id1
  cases id2
  simp only at h3
  simp [h3]

/-- A successful `scopedEval` call leaves the global environment unchanged:
everything it declares lives in the discarded function-local scope. -/
theorem scopedEval_globals_unchanged (g g2 : GlobalEnv) (code : Expr)
    (contextVars : Env) (freshId : String) (v : Int)
    (h : scopedEval g code contextVars freshId = .ok (v, g2)) : g2 = g := by
  unfold scopedEval at h
  simp only [buildScopedFunction] at h
  split at h
  · exact absurd h (by simp)
  · split at h
    · exact absurd h (by simp)
    · simp only [Except.ok.injEq, Prod.mk.injEq] at h
      exact h.2.symm

/-- C6: `scopedEval` with code `a + b` and context `a = 3, b = 4` returns
`7` over any global state; a successful `scopedEval` leaves the global
environment unchanged; repeating the call with the same variable names (and
any per-call fresh id) succeeds identically instead of failing with a
redeclaration error; a later global `eval` declaring a `const` that was not
already global still succeeds after the call; and two calls with distinct
fresh ids generate functions with distinct parameter names. -/
theorem scopedEval_correct_and_no_leak
    (g g2 : GlobalEnv) (code : Expr) (contextVars : Env) (freshId id1 id2 : String)
    (v : Int)
    (hok : scopedEval g code contextVars freshId = .ok (v, g2))
    (hids : id1 ≠ id2) :
    scopedEval g (.add (.evar "a") (.evar "b")) [("a", 3), ("b", 4)] freshId
        = .ok (7, g) ∧
    g2 = g ∧
    (∀ id3 : String, scopedEval g2 code contextVars id3 = .ok (v, g2)) ∧
    (∀ n : String, (g.decls.map Prod.fst).contains n = false →
      evalScript g2 { decls := [(n, .lit 1)], result := .lit 0 }
        = .ok (0, ⟨g.decls ++ [(n, 1)]⟩)) ∧
    (buildScopedFunction code (contextVars.map Prod.fst) id1).paramName
        ≠ (buildScopedFunction code (contextVars.map Prod.fst) id2).paramName := by
  have hg : g2 = g := scopedEval_globals_unchanged g g2 code contextVars freshId v hok
  subst hg
  refine ⟨rfl, rfl, ?_, ?_, buildScopedFunction_paramName_inj _ _ _ _ hids⟩
  · intro id3
    exact hok
  · intro n hn
    simp only [evalScript, runDecls, evalExpr]
    rw [hn]
    simp

/-- Witness for `scopedEval_correct_and_no_leak`: two calls with the same
variable names on an empty global state, a later global `const occ`, and
the concrete fresh ids `0xA`, `0xB`. -/
theorem scopedEval_correct_and_no_leak_witness :
    scopedEval ⟨[]⟩ (.add (.evar "a") (.evar "b")) [("a", 3), ("b", 4)] "0xA"
        = .ok (7, ⟨[]⟩) ∧
    scopedEval ⟨[]⟩ (.add (.evar "a") (.evar "b")) [("a", 3), ("b", 4)] "0xB"
        = .ok (7, ⟨[]⟩) ∧
    evalScript ⟨[]⟩ { decls := [("occ", .lit 1)], result := .lit 0 }
        = .ok (0, ⟨[("occ", 1)]⟩) ∧
    (buildScopedFunction (.add (.evar "a") (.evar "b")) ["a", "b"] "0xA").paramName
        ≠ (buildScopedFunction (.add (.evar "a") (.evar "b")) ["a", "b"] "0xB").paramName := by
  have h := scopedEval_correct_and_no_leak ⟨[]⟩ ⟨[]⟩
      (.add (.evar "a") (.evar "b")) [("a", 3), ("b", 4)] "0xA" "0xA" "0xB" 7 rfl
      (by decide)
  exact ⟨h.1, h.2.2.1 "0xB", h.2.2.2.1 "occ" rfl, h.2.2.2.2⟩

/-! ### VMManager readiness signalling (C7) -/

/-- The readiness-related state of a `VMManager`: the `ready` flag, the
shared pending promise `_readyPromise` (by identity), a supply of fresh
promise identities, and the promises that have been resolved with `true`. -/
structure ReadyState where
  ready : Bool
  readyPromise : Option Nat
  nextPid : Nat
  resolvedTrue : List Nat
deriving DecidableEq, Repr

/-- What one `awaitReady()` call hands its caller: `true` immediately, or a
pending promise to await. -/
inductive AwaitOutcome where
  | immediateTrue
  | pending (pid : Nat)
deriving DecidableEq, Repr

/-- `VMManager.awaitReady` (vm.ts lines 69-90): when `ready`, return `true`
at once; when the shared `_readyPromise` already exists, return that same
promise; otherwise create the shared promise, store it, and return it.
(The deferred clearing of `_readyPromise` scheduled on a zero-delay timer
after resolution does not affect these paths.) -/
def awaitReady (st : ReadyState) : AwaitOutcome × ReadyState :=
  if st.ready then (.immediateTrue, st)
  else
    match st.readyPromise with
    | some pid => (.pending pid, st)
    | none =>
      (.pending st.nextPid,
       { st with readyPromise := some st.nextPid, nextPid := st.nextPid + 1 })

/-- `VMManager.setReady` (vm.ts lines 146-151): set the flag; when setting
to `true`, resolve the shared ready promise (when one exists) with `true`. -/
def setReady (b : Bool) (st : ReadyState) : ReadyState :=
  let st1 := { st with ready := b }
  if b then
    match st.readyPromise with
    | some pid => { st1 with resolvedTrue := st1.resolvedTrue ++ [pid] }
    | none => st1
  else st1

/-- C7: once the manager is ready, `awaitReady` resolves immediately with
`true` and changes nothing; before readiness, any two `awaitReady` calls
(in either creation order) hand back the same pending promise, and when
readiness is signalled via `setReady true` that shared promise is resolved
with `true`, so every pending caller observes `true`. -/
theorem awaitReady_shared_completion (st : ReadyState) :
    (st.ready = true → awaitReady st = (.immediateTrue, st)) ∧
    (st.ready = false →
      ∃ pid,
        (awaitReady st).1 = .pending pid ∧
        (awaitReady (awaitReady st).2).1 = .pending pid ∧
        pid ∈ (setReady true (awaitReady (awaitReady st).2).2).resolvedTrue) := by
  constructor
  · intro h
    simp [awaitReady, h]
  · intro h
    cases hrp : st.readyPromise with
    | some pid =>
      refine ⟨pid, ?_, ?_, ?_⟩ <;> simp [awaitReady, setReady, h, hrp]
    | none =>
      refine ⟨st.nextPid, ?_, ?_, ?_⟩ <;> simp [awaitReady, setReady, h, hrp]

/-- A manager that has already signalled readiness. -/
def readyManagerState : ReadyState :=
  { ready := true, readyPromise := none, nextPid := 0, resolvedTrue := [] }

/-- A manager before `init` completes, with no pending `awaitReady` caller. -/
def pendingManagerState : ReadyState :=
  { ready := false, readyPromise := none, nextPid := 0, resolvedTrue := [] }

/-- Witness for `awaitReady_shared_completion`: an already-ready manager and
a not-yet-ready manager with no pending promise. -/
theorem awaitReady_shared_completion_witness :
    awaitReady readyManagerState = (.immediateTrue, readyManagerState) ∧
    (∃ pid,
      (awaitReady pendingManagerState).1 = .pending pid ∧
      (awaitReady (awaitReady pendingManagerState).2).1 = .pending pid ∧
      pid ∈ (setReady true
        (awaitReady (awaitReady pendingManagerState).2).2).resolvedTrue) :=
  ⟨(awaitReady_shared_completion readyManagerState).1 rfl,
   (awaitReady_shared_completion pendingManagerState).2 rfl⟩

/-! ### Symbol crossing semantics (C8) -/

/-- Whether the host symbol with the given registry key and the registered
symbol `Symbol.for(k)` are the same JavaScript symbol: exactly when the
host symbol is itself globally registered under `k`. -/
def sameSymbol (registryKey : Option String) (k : String) : Bool :=
  registryKey == some k

/-- C8: `serializeJSValue` writes a symbol's global registry key when the
symbol is registered and otherwise its description string (marshal.ts lines
111-113), and `deserializeVMValue` always rebuilds a globally registered
symbol via `Symbol.for` (lines 168-170); hence a local unregistered symbol
is not round-tripped to an identical symbol. -/
theorem symbol_serialization_registry_semantics
    (reg desc : Option String) (tkn : String) (st : MarshallerState) :
    serializeJSValue (.sym reg desc) tkn none st
        = (.wtagged "symbol" (.wstr (symbolPayload reg desc)) none, st) ∧
    deserializeVMValue (.wtagged "symbol" (.wstr (symbolPayload reg desc)) none) tkn none
        = .sym (symbolPayload reg desc) ∧
    (∀ k, reg = some k → symbolPayload reg desc = k) ∧
    (∀ d, reg = none → desc = some d → symbolPayload reg desc = d) ∧
    (reg = none → sameSymbol reg (symbolPayload reg desc) = false) := by
  refine ⟨rfl, rfl, ?_, ?_, ?_⟩
  · intro k hk
    subst hk
    rfl
  · intro d hr hd
    subst hr
    subst hd
    rfl
  · intro hr
    subst hr
    rfl

/-- Witness for `symbol_serialization_registry_semantics`: the local symbol
`Symbol('hello')` and the registered symbol `Symbol.for('key')`. -/
theorem symbol_serialization_registry_semantics_witness :
    serializeJSValue (.sym none (some "hello")) "_T_" none initialState
        = (.wtagged "symbol" (.wstr "hello") none, initialState) ∧
    deserializeVMValue (.wtagged "symbol" (.wstr "hello") none) "_T_" none
        = .sym "hello" ∧
    symbolPayload (some "key") (some "key") = "key" ∧
    sameSymbol none "hello" = false := by
  have h1 := symbol_serialization_registry_semantics none (some "hello") "_T_" initialState
  have h2 := symbol_serialization_registry_semantics (some "key") (some "key") "_T_"
    initialState
  exact ⟨h1.1, h1.2.1, h2.2.2.1 "key" rfl, h1.2.2.2.2 rfl⟩

/-! ### Thenable classification (C9) -/

/-- C9: a non-null object that is not a `Date` and not an array but carries
a `then` key — whatever that key's value, callable or not — is classified
by `serializeJSValue` as kind `promise` (the branch at marshal.ts line 126
tests `value instanceof Promise || 'then' in value`) and is cached under
the freshly minted CacheId. -/
theorem then_key_object_classified_as_promise
    (fields : List (String × JSValue)) (tkn : String) (parentCacheId : Option String)
    (st : MarshallerState) (hthen : hasThenKey fields = true) :
    serializeJSValue (.obj fields) tkn parentCacheId st
      = (.wtagged "promise" (.wstr (generateRandomId st).1) none,
         withCache (generateRandomId st).2 (generateRandomId st).1 (.obj fields)) := by
  simp [serializeJSValue, hthen]

/-- Witness for `then_key_object_classified_as_promise`: the plain object
with a non-callable `then` property, `\x7b then: 5 \x7d`. -/
theorem then_key_object_classified_as_promise_witness :
    serializeJSValue (.obj [("then", .num 5)]) "_T_" none initialState
      = (.wtagged "promise" (.wstr "0xA") none,
         { valueCache := [("0xA", .obj [("then", .num 5)])], idSupply := ["0xB"] }) :=
  then_key_object_classified_as_promise [("then", .num 5)] "_T_" none initialState rfl

/-! ### Frame condition of serialization on the value cache (C10) -/

/-- The value kinds named by the frame claim: strings, numbers, booleans,
bigints, symbols, `null` and `undefined`. -/
def isScalarKind : JSValue → Bool
  | .str _ => true
  | .num _ => true
  | .bool _ => true
  | .bigint _ => true
  | .sym _ _ => true
  | .null => true
  | .undefinedJS => true
  | _ => false

mutual

/-- Whether a value graph contains a cacheable node: a plain object, a
function, a promise/thenable, or an array with a cacheable element. -/
def hasCacheable : JSValue → Bool
  | .obj _ => true
  | .func _ => true
  | .promise _ => true
  | .arr xs => hasCacheableList xs
  | _ => false

/-- Whether some element of a list contains a cacheable node. -/
def hasCacheableList : List JSValue → Bool
  | [] => false
  | v :: rest => hasCacheable v || hasCacheableList rest

end

/-- `generateRandomId` consumes the id supply but never touches the cache. -/
theorem generateRandomId_valueCache (st : MarshallerState) :
    ((generateRandomId st).2).valueCache = st.valueCache := by
  unfold generateRandomId
  cases st.idSupply <;> rfl

mutual

/-- Serializing a value graph with no cacheable node leaves `valueCache`
untouched. -/
theorem serialize_no_cacheable_preserves_cache (v : JSValue) (tkn : String)
    (p : Option String) (st : MarshallerState) (h : hasCacheable v = false) :
    ((serializeJSValue v tkn p st).2).valueCache = st.valueCache := by
  cases v with
  | str s => rfl
  | bool b => rfl
  | num n => rfl
  | undefinedJS => rfl
  | bigint i => rfl
  | sym reg desc => rfl
  | null =>
    simp only [serializeJSValue]
    exact generateRandomId_valueCache st
  | date ms =>
    simp only [serializeJSValue]
    exact generateRandomId_valueCache st
  | arr elems =>
    simp only [serializeJSValue]
    rw [serializeList_no_cacheable_preserves_cache elems tkn (generateRandomId st).2
      (by simpa [hasCacheable] using h)]
    exact generateRandomId_valueCache st
  | obj fields => simp [hasCacheable] at h
  | func f => simp [hasCacheable] at h
  | promise pid => simp [hasCacheable] at h

/-- Serializing a list of value graphs with no cacheable node leaves
`valueCache` untouched. -/
theorem serializeList_no_cacheable_preserves_cache (vs : List JSValue) (tkn : String)
    (st : MarshallerState) (h : hasCacheableList vs = false) :
    ((serializeJSList vs tkn st).2).valueCache = st.valueCache := by
  cases vs with
  | nil => rfl
  | cons v rest =>
    simp only [hasCacheableList, Bool.or_eq_false_iff] at h
    simp only [serializeJSList]
    rw [serializeList_no_cacheable_preserves_cache rest tkn
      (serializeJSValue v tkn none st).2 h.2]
    exact serialize_no_cacheable_preserves_cache v tkn none st h.1

end

/-- C10: serializing a string, number, boolean, bigint, symbol, `null` or
`undefined` returns without adding or removing any `valueCache` entry; and
`valueCache` can change only when the serialized value graph contains a
function, a promise/thenable, a plain object, or another cacheable
non-primitive node. -/
theorem serialize_scalar_frame_valueCache
    (v : JSValue) (tkn : String) (p : Option String) (st : MarshallerState) :
    (isScalarKind v = true →
      ((serializeJSValue v tkn p st).2).valueCache = st.valueCache) ∧
    (((serializeJSValue v tkn p st).2).valueCache ≠ st.valueCache →
      hasCacheable v = true) := by
  constructor
  · intro h
    cases v with
    | str s => rfl
    | bool b => rfl
    | num n => rfl
    | undefinedJS => rfl
    | bigint i => rfl
    | sym reg desc => rfl
    | null =>
      simp only [serializeJSValue]
      exact generateRandomId_valueCache st
    | date ms => simp [isScalarKind] at h
    | arr elems => simp [isScalarKind] at h
    | obj fields => simp [isScalarKind] at h
    | func f => simp [isScalarKind] at h
    | promise pid => simp [isScalarKind] at h
  · intro h
    cases hc : hasCacheable v with
    | true => rfl
    | false => exact absurd (serialize_no_cacheable_preserves_cache v tkn p st hc) h

/-- Witness for `serialize_scalar_frame_valueCache`: a bigint leaves the
cache untouched, while a function — which does extend the cache — is a
cacheable kind. -/
theorem serialize_scalar_frame_valueCache_witness :
    ((serializeJSValue (.bigint 999) "_T_" none initialState).2).valueCache
        = initialState.valueCache ∧
    hasCacheable (.func 0) = true :=
  ⟨(serialize_scalar_frame_valueCache (.bigint 999) "_T_" none initialState).1 rfl,
   (serialize_scalar_frame_valueCache (.func 0) "_T_" none initialState).2
     (fun hcontra => List.noConfusion hcontra)⟩

end Tectonica
